import Mathlib

/-!
Verification of the justdial-lead-processing-service lead intake-and-forwarding
pipeline: a shallow embedding of the validation middleware, the sanitization
middleware, the forwarding dispatcher (endpoint selection, payload transform,
dispatch) and the intake orchestrator (create, retry, bulk-forward, status
update), together with theorems settling the specification claims.

The document store is modelled as an in-memory list of records; outbound HTTP
is modelled by an explicit fetch-outcome parameter; wall-clock processing
times are not modelled.
-/

namespace JustdialLead

/-! ## String utilities

JavaScript string primitives used by the source, modelled over the character
list of a string: `trim` (whitespace strip at both ends), whitespace-run
collapsing as in `replace` with an all-whitespace-runs pattern and a single
space replacement, splitting on a separator character, and `parseInt`.
-/

/-- JavaScript whitespace test for the characters the repository can see. -/
def isWsChar (c : Char) : Bool := c.isWhitespace

/-- Head of the list is absent or not whitespace. -/
def headNotWs (l : List Char) : Bool :=
  match l with
  | [] => true
  | c :: _ => !isWsChar c

/-- Last element of the list is absent or not whitespace. -/
def lastNotWs (l : List Char) : Bool := headNotWs l.reverse

/-- Strip whitespace from both ends, as the JavaScript trim method does. -/
def trimChars (l : List Char) : List Char :=
  ((l.dropWhile isWsChar).reverse.dropWhile isWsChar).reverse

/-- Collapse every maximal whitespace run to one space; the flag records
whether the previously emitted character position was inside a run. -/
def collapseWsAux : Bool → List Char → List Char
  | _, [] => []
  | prevWs, c :: rest =>
    if isWsChar c then
      if prevWs then collapseWsAux true rest
      else ' ' :: collapseWsAux true rest
    else c :: collapseWsAux false rest

/-- Replace every run of whitespace by a single space. -/
def collapseWs (l : List Char) : List Char := collapseWsAux false l

/-- JavaScript trim on strings. -/
def jsTrim (s : String) : String := String.mk (trimChars s.data)

/-- Split a character list at every occurrence of the separator, as the
JavaScript split method does on a one-character separator. -/
def splitOnChar (sep : Char) (l : List Char) : List (List Char) :=
  l.foldr
    (fun c acc =>
      match acc with
      | [] => if c = sep then [[], []] else [[c]]
      | cur :: rest => if c = sep then [] :: cur :: rest else (c :: cur) :: rest)
    [[]]

/-- Digit run to number. -/
def digitsToNat (l : List Char) : Nat :=
  l.foldl (fun acc c => acc * 10 + (c.toNat - 48)) 0

/-- JavaScript parseInt in base 10: optional sign after trimming, then the
leading digit run; no digits parse to NaN, modelled as none. -/
def jsParseInt (s : String) : Option Int :=
  let t := trimChars s.data
  let signAndRest : Int × List Char :=
    match t with
    | '-' :: cs => (-1, cs)
    | '+' :: cs => (1, cs)
    | cs => (1, cs)
  let digits := signAndRest.2.takeWhile Char.isDigit
  if digits.isEmpty then none
  else some (signAndRest.1 * (digitsToNat digits : Int))

/-- Truthiness of an optional string field: present and non-empty. -/
def truthyStr (v : Option String) : Bool :=
  match v with
  | none => false
  | some s => !s.isEmpty

/-! ## Lead data and status -/

/-- Processing status of a stored lead record. -/
inductive Status
  | pending
  | processed
  | failed
deriving DecidableEq, Repr

/-- The status enum as it is spelled on the wire. -/
def statusOfString (s : String) : Option Status :=
  if s = "pending" then some Status.pending
  else if s = "processed" then some Status.processed
  else if s = "failed" then some Status.failed
  else none

/-- A date value as the source manipulates it: calendar fields plus a
time of day, standing in for a JavaScript Date. -/
structure JsDate where
  year : Int
  month : Nat
  day : Nat
  hour : Nat
  minute : Nat
  second : Nat
deriving DecidableEq, Repr

/-- The lead fields the forwarding dispatcher reads; absent fields are none,
and an empty string is falsy exactly as in the source. The prefix field is
named prefixStr here. -/
structure LeadData where
  leadid : Option String
  leadtype : Option String
  prefixStr : Option String
  name : Option String
  mobile : Option String
  phone : Option String
  email : Option String
  date : Option JsDate
  time : Option String
  category : Option String
  city : Option String
  area : Option String
  brancharea : Option String
  pincode : Option String
deriving DecidableEq, Repr

/-- A lead value with every field absent. -/
def emptyLead : LeadData :=
  { leadid := none, leadtype := none, prefixStr := none, name := none,
    mobile := none, phone := none, email := none, date := none, time := none,
    category := none, city := none, area := none, brancharea := none,
    pincode := none }

/-! ## Forwarding dispatcher -/

/-- Marketing destination URL from the source constants. -/
def MARKETING_API : String :=
  "https://crm-leads-service.pointofconnect.com/api/leads/webapi/b49a0df6-0516-440a-a22d-c79a3dad7011"

/-- WhatsApp destination URL from the source constants. -/
def WHATSAPP_API : String :=
  "https://crm-leads-service.pointofconnect.com/api/leads/webapi/3bf6fe8f-5c5d-4182-86d2-9dfa19a62220"

/-- Marketing category allow-list from the source constants. -/
def MARKETING_CATEGORIES : List String :=
  ["Advertising Agencies",
   "Branding Services",
   "Website Marketing Services",
   "Campaign Management Services",
   "Content Creation Services",
   "Digital Marketing Services",
   "Google Ads Certified Partners",
   "Marketing Agencies",
   "Marketing Services",
   "Pay Per Click Services",
   "Social Media Consultants",
   "Social Media Marketing Agencies"]

/-- WhatsApp category allow-list from the source constants. -/
def WHATSAPP_CATEGORIES : List String :=
  ["Broadcast Services",
   "Whatsapp Business Api Services",
   "Whatsapp Marketing Services",
   "Bulk Whatsapp Messaging Services"]

/-- Endpoint selection: falsy category defaults to the marketing API; a
category whose trimmed form is in the WhatsApp allow-list goes to the
WhatsApp API; every other category goes to the marketing API. -/
def getApiEndpoint (category : Option String) : String :=
  match category with
  | none => MARKETING_API
  | some c =>
    if c.isEmpty then MARKETING_API
    else if WHATSAPP_CATEGORIES.contains (jsTrim c) then WHATSAPP_API
    else MARKETING_API

/-- Overwrite the hour, minute and second of a date from an HH:MM:SS string,
as setHours with the three parseInt components does; if a component fails to
parse the date is left unchanged. -/
def setHoursFromTime (d : JsDate) (t : String) : JsDate :=
  match (splitOnChar ':' t.data).map (fun part => jsParseInt (String.mk part)) with
  | some h :: some m :: some s :: _ =>
    { d with hour := h.toNat, minute := m.toNat, second := s.toNat }
  | _ => d

/-- External wire payload produced by the transform; an omitted key is none. -/
structure TransformedLead where
  name : Option String
  phoneNumber : Option String
  emailAddress : Option String
  enquiryDateTime : Option JsDate
  category : Option String
  city : Option String
  area : Option String
  branchArea : Option String
  pincode : Option String
deriving DecidableEq, Repr

/-- Transform a lead into the external payload: prefixed name when both
prefix and name are truthy, mobile preferred over phone for the phone-number
key, email passthrough, date combined with the parsed time, and direct
passthrough of category, city, area, branch area and pincode; falsy fields
are omitted. -/
def transformLeadData (ld : LeadData) : TransformedLead :=
  { name :=
      if truthyStr ld.prefixStr && truthyStr ld.name then
        some (jsTrim ((ld.prefixStr.getD "") ++ " " ++ (ld.name.getD "")))
      else if truthyStr ld.name then ld.name
      else none,
    phoneNumber :=
      if truthyStr ld.mobile then ld.mobile
      else if truthyStr ld.phone then ld.phone
      else none,
    emailAddress := if truthyStr ld.email then ld.email else none,
    enquiryDateTime :=
      match ld.date with
      | some d => if truthyStr ld.time then some (setHoursFromTime d (ld.time.getD "")) else some d
      | none => none,
    category := if truthyStr ld.category then ld.category else none,
    city := if truthyStr ld.city then ld.city else none,
    area := if truthyStr ld.area then ld.area else none,
    branchArea := if truthyStr ld.brancharea then ld.brancharea else none,
    pincode := if truthyStr ld.pincode then ld.pincode else none }

/-- Outcome of the underlying fetch call: an HTTP response or a network or
timeout error carrying a message. -/
structure HttpResp where
  ok : Bool
  status : Nat
  statusText : String
  bodyText : String
  jsonData : String
deriving DecidableEq, Repr

/-- What the awaited fetch did. -/
inductive FetchOutcome
  | response (r : HttpResp)
  | networkError (msg : String)
deriving DecidableEq, Repr

/-- Successful dispatch payload: the parsed external response body. -/
structure SendOk where
  data : String
deriving DecidableEq, Repr

/-- Dispatch one POST: a network error propagates as a thrown message; a
non-ok response throws the message built from the status code and status
text; an ok response returns the parsed body. -/
def sendLeadToApi (payload : TransformedLead) (apiEndpoint : String)
    (fetchResult : FetchOutcome) : Except String SendOk :=
  match payload, apiEndpoint, fetchResult with
  | _, _, FetchOutcome.networkError msg => Except.error msg
  | _, _, FetchOutcome.response r =>
    if !r.ok then
      Except.error ("API request failed: " ++ toString r.status ++ " " ++ r.statusText)
    else
      Except.ok { data := r.jsonData }

/-- Result object every caller of the forwarding pipeline receives. -/
structure ForwardResult where
  success : Bool
  apiEndpoint : Option String
  category : Option String
  data : Option String
  error : Option String
deriving DecidableEq, Repr

/-- Select the endpoint, transform the lead, dispatch, and catch every
thrown error into a declared failure result carrying the error message and
the lead category; never throws. -/
def processAndForwardLead (ld : LeadData) (fetchResult : FetchOutcome) : ForwardResult :=
  let apiEndpoint := getApiEndpoint ld.category
  let transformedData := transformLeadData ld
  match sendLeadToApi transformedData apiEndpoint fetchResult with
  | Except.ok r =>
    { success := true, apiEndpoint := some apiEndpoint, category := ld.category,
      data := some r.data, error := none }
  | Except.error msg =>
    { success := false, apiEndpoint := none, category := ld.category,
      data := none, error := some msg }

/-! ## Persistence gateway and intake orchestrator

The document store is a list of records whose leadid column carries a unique
index; status writes go through the store. The awaited forwarding call is
abstracted as a forward event: either a resolved result object or a thrown
exception message, so the catch branches of the orchestrator are reachable
in the model.
-/

/-- A stored lead record: its unique identifier, its processing status and
the lead fields. -/
structure LeadRec where
  leadid : String
  status : Status
  dataFields : LeadData
deriving DecidableEq, Repr

/-- The lead collection. -/
abbrev Db := List LeadRec

/-- findOne on the leadid key. -/
def findLead (db : Db) (id : String) : Option LeadRec :=
  db.find? (fun r => r.leadid = id)

/-- Persist a status value on every record bearing the identifier. -/
def setStatus (db : Db) (id : String) (st : Status) : Db :=
  db.map (fun r => if r.leadid = id then { r with status := st } else r)

/-- What awaiting the forwarding call produced: a resolved result object, or
an exception thrown out of the awaited call. -/
inductive ForwardEvent
  | result (r : ForwardResult)
  | thrown (msg : String)
deriving DecidableEq, Repr

/-- Whether the forward event is a resolved success. -/
def ForwardEvent.isOk : ForwardEvent → Bool
  | ForwardEvent.result r => r.success
  | ForwardEvent.thrown _ => false

/-- Error message carried by a non-success forward event, if any. -/
def ForwardEvent.errMsg : ForwardEvent → Option String
  | ForwardEvent.result r => r.error
  | ForwardEvent.thrown msg => some msg

/-- Everything the create handler decides: HTTP status and body, the store
after the request, how many forwarding attempts were made, and how many
status writes followed the insert. -/
structure CreateOutput where
  httpStatus : Nat
  body : String
  db : Db
  forwardAttempts : Nat
  statusWrites : Nat
deriving DecidableEq, Repr

/-- The single-lead create handler: duplicate leadid answers 409 without
forwarding; otherwise the record is inserted at pending, one forwarding
attempt is awaited, and its outcome (resolved success, resolved failure, or
thrown exception) sets the status to processed or failed with one store
write, after which the handler acknowledges with 200 RECEIVED. -/
def createLead (db : Db) (ld : LeadData) (fwd : ForwardEvent) : CreateOutput :=
  let key := ld.leadid.getD ""
  match findLead db key with
  | some _ =>
    { httpStatus := 409, body := "Lead already exists", db := db,
      forwardAttempts := 0, statusWrites := 0 }
  | none =>
    let db1 := db ++ [{ leadid := key, status := Status.pending, dataFields := ld }]
    match fwd with
    | ForwardEvent.result r =>
      if r.success then
        { httpStatus := 200, body := "RECEIVED",
          db := setStatus db1 key Status.processed,
          forwardAttempts := 1, statusWrites := 1 }
      else
        { httpStatus := 200, body := "RECEIVED",
          db := setStatus db1 key Status.failed,
          forwardAttempts := 1, statusWrites := 1 }
    | ForwardEvent.thrown _ =>
      { httpStatus := 200, body := "RECEIVED",
        db := setStatus db1 key Status.failed,
        forwardAttempts := 1, statusWrites := 1 }

/-- The PATCH status handler: a body status outside the enum answers 400 and
leaves the store alone; an unknown leadid answers 404; otherwise the
requested status is written unconditionally and the handler answers 200. -/
def updateLeadStatus (db : Db) (id : String) (statusStr : String) : Nat × Db :=
  match statusOfString statusStr with
  | none => (400, db)
  | some st =>
    match findLead db id with
    | none => (404, db)
    | some _ => (200, setStatus db id st)

/-- Everything the retry handler decides. -/
structure RetryOutput where
  httpStatus : Nat
  success : Bool
  currentStatus : Option Status
  error : Option String
  db : Db
  forwardAttempts : Nat
deriving DecidableEq, Repr

/-- The retry handler: unknown leadid answers 404; a lead that is not
currently failed answers 400 reporting the current status, with no
forwarding; a failed lead gets exactly one forwarding attempt, whose success
writes processed and answers 200, and whose failure (declared or thrown)
answers 500 without a store write, leaving the status failed. -/
def retryLeadForwarding (db : Db) (id : String) (fwd : ForwardEvent) : RetryOutput :=
  match findLead db id with
  | none =>
    { httpStatus := 404, success := false, currentStatus := none,
      error := none, db := db, forwardAttempts := 0 }
  | some lead =>
    if lead.status ≠ Status.failed then
      { httpStatus := 400, success := false, currentStatus := some lead.status,
        error := none, db := db, forwardAttempts := 0 }
    else
      match fwd with
      | ForwardEvent.result r =>
        if r.success then
          { httpStatus := 200, success := true, currentStatus := none,
            error := none, db := setStatus db id Status.processed,
            forwardAttempts := 1 }
        else
          { httpStatus := 500, success := false, currentStatus := none,
            error := r.error, db := db, forwardAttempts := 1 }
      | ForwardEvent.thrown _ =>
        { httpStatus := 500, success := false, currentStatus := none,
          error := none, db := db, forwardAttempts := 1 }

/-- Aggregated counters of one bulk-forward request. -/
structure BulkSummary where
  total : Nat
  successful : Nat
  failed : Nat
  notFound : Nat
deriving DecidableEq, Repr

/-- One per-lead entry of the bulk detail list. -/
structure BulkDetail where
  leadid : String
  status : String
  error : Option String
  category : Option String
deriving DecidableEq, Repr

/-- Everything the bulk handler decides. -/
structure BulkOutput where
  httpStatus : Nat
  summary : Option BulkSummary
  details : List BulkDetail
  db : Db
deriving DecidableEq, Repr

/-- The per-lead detail entries of a bulk-forward: success entries carry the
forward result fields, failure entries carry the error and category, thrown
exceptions carry the message and the stored category. -/
def bulkDetails (leads : List LeadRec) (eventOf : String → ForwardEvent) :
    List BulkDetail :=
  leads.map (fun r =>
    match eventOf r.leadid with
    | ForwardEvent.result fr =>
      if fr.success then
        { leadid := r.leadid, status := "success", error := none,
          category := fr.category }
      else
        { leadid := r.leadid, status := "failed", error := fr.error,
          category := fr.category }
    | ForwardEvent.thrown msg =>
      { leadid := r.leadid, status := "failed", error := some msg,
        category := r.dataFields.category })

/-- The store after the per-lead saves of a bulk-forward: each requested
record goes to processed on its forward success and failed otherwise. -/
def bulkNewDb (db : Db) (leadIds : List String)
    (eventOf : String → ForwardEvent) : Db :=
  db.map (fun r =>
    if leadIds.contains r.leadid then
      { r with status := if (eventOf r.leadid).isOk then Status.processed else Status.failed }
    else r)

/-- The bulk-forward handler: an empty identifier list answers 400, more
than 100 identifiers answers 400, no identifier resolving to a record
answers 404; otherwise each resolved lead is forwarded independently (the
per-lead forward event is looked up by identifier), its record is written to
processed on success and failed on declared failure or thrown exception, a
detail entry is produced per resolved lead, and the 200 summary counts
successes, failures and requested identifiers minus resolved records. -/
def bulkForwardLeads (db : Db) (leadIds : List String)
    (eventOf : String → ForwardEvent) : BulkOutput :=
  if leadIds.isEmpty then
    { httpStatus := 400, summary := none, details := [], db := db }
  else if leadIds.length > 100 then
    { httpStatus := 400, summary := none, details := [], db := db }
  else if (db.filter (fun r => leadIds.contains r.leadid)).isEmpty then
    { httpStatus := 404, summary := none, details := [], db := db }
  else
    { httpStatus := 200,
      summary := some
        { total := (db.filter (fun r => leadIds.contains r.leadid)).length,
          successful := ((db.filter (fun r => leadIds.contains r.leadid)).filter
            (fun r => (eventOf r.leadid).isOk)).length,
          failed := (db.filter (fun r => leadIds.contains r.leadid)).length -
            ((db.filter (fun r => leadIds.contains r.leadid)).filter
              (fun r => (eventOf r.leadid).isOk)).length,
          notFound := leadIds.length - (db.filter (fun r => leadIds.contains r.leadid)).length },
      details := bulkDetails (db.filter (fun r => leadIds.contains r.leadid)) eventOf,
      db := bulkNewDb db leadIds eventOf }

/-! ## Validation stage

The raw input is the key-value shape arriving from the query string or body:
every field an optional string. The schema is the declarative per-field rule
table of the source; the external rule engine is driven with the
collect-every-violation option, so validation is the concatenation of every
rule's verdict. The pre-validation coercions of the middleware (parseInt on
the DNC flags, date construction) are applied inside the affected rules.
-/

/-- Raw lead input as delivered by the query string or JSON body. -/
structure RawLead where
  leadid : Option String
  leadtype : Option String
  prefixStr : Option String
  name : Option String
  mobile : Option String
  phone : Option String
  email : Option String
  date : Option String
  category : Option String
  city : Option String
  area : Option String
  brancharea : Option String
  dncmobile : Option String
  dncphone : Option String
  company : Option String
  pincode : Option String
  time : Option String
  branchpin : Option String
  parentid : Option String
deriving DecidableEq, Repr

/-- A raw input with every field absent. -/
def emptyRaw : RawLead :=
  { leadid := none, leadtype := none, prefixStr := none, name := none,
    mobile := none, phone := none, email := none, date := none,
    category := none, city := none, area := none, brancharea := none,
    dncmobile := none, dncphone := none, company := none, pincode := none,
    time := none, branchpin := none, parentid := none }

/-- One reported violation. -/
structure FieldError where
  field : String
  message : String
deriving DecidableEq, Repr

/-- One declarative constraint of the schema: the field it concerns and its
verdict on a raw input, none when satisfied. -/
structure Rule where
  field : String
  check : RawLead → Option String

/-- Required string field: missing, or empty after trimming, is reported
with the single message the schema gives both cases. -/
def reqRule (get : RawLead → Option String) (msg : String) : RawLead → Option String :=
  fun raw =>
    match get raw with
    | none => some msg
    | some s => if (jsTrim s).isEmpty then some msg else none

/-- Maximum length on the trimmed value of a present field. -/
def maxRule (get : RawLead → Option String) (n : Nat) (msg : String) :
    RawLead → Option String :=
  fun raw =>
    match get raw with
    | none => none
    | some s => if (jsTrim s).length > n then some msg else none

/-- Character-class pattern on the trimmed value of a present, non-empty
field; the empty string is allowed. -/
def patternRule (get : RawLead → Option String) (test : String → Bool) (msg : String) :
    RawLead → Option String :=
  fun raw =>
    match get raw with
    | none => none
    | some s =>
      let t := jsTrim s
      if t.isEmpty then none
      else if test t then none else some msg

/-- Closed value set on the trimmed value of a present, non-empty field. -/
def validSetRule (get : RawLead → Option String) (vals : List String) (msg : String) :
    RawLead → Option String :=
  fun raw =>
    match get raw with
    | none => none
    | some s =>
      let t := jsTrim s
      if t.isEmpty then none
      else if vals.contains t then none else some msg

/-- Mobile and phone character class from the schema pattern. -/
def phoneCharsOk (s : String) : Bool :=
  s.data.all (fun c => c.isDigit || c = '+' || c = '-' || isWsChar c || c = '(' || c = ')')

/-- Digits-only pattern from the schema. -/
def digitsOnly (s : String) : Bool := s.data.all Char.isDigit

/-- Whether the list has a separator dot strictly inside it. -/
def hasInteriorDot (l : List Char) : Bool :=
  ((l.drop 1).dropLast).contains '.'

/-- Basic email shape of the schema: no whitespace, exactly one at sign with
a non-empty local part, and a dot strictly inside the domain part. -/
def emailShape (s : String) : Bool :=
  s.data.all (fun c => !isWsChar c) &&
  match splitOnChar '@' s.data with
  | [loc, dom] => !loc.isEmpty && hasInteriorDot dom
  | _ => false

/-- Minute or second pair of the time pattern. -/
def minSecOk (a b : Char) : Bool :=
  (a = '0' || a = '1' || a = '2' || a = '3' || a = '4' || a = '5') && b.isDigit

/-- The HH:MM:SS pattern of the schema: one or two hour digits with hours 0
to 23, then minutes and seconds 00 to 59. -/
def validTime (s : String) : Bool :=
  match s.data with
  | [h, ':', m1, m2, ':', s1, s2] =>
    h.isDigit && minSecOk m1 m2 && minSecOk s1 s2
  | [h1, h2, ':', m1, m2, ':', s1, s2] =>
    (((h1 = '0' || h1 = '1') && h2.isDigit) ||
      (h1 = '2' && (h2 = '0' || h2 = '1' || h2 = '2' || h2 = '3'))) &&
    minSecOk m1 m2 && minSecOk s1 s2
  | _ => false

/-- Whether a character list begins with a plausible ISO calendar date:
four year digits, dash, valid month pair, dash, valid day pair. -/
def isoDatePrefixOk (l : List Char) : Bool :=
  match l with
  | y1 :: y2 :: y3 :: y4 :: '-' :: m1 :: m2 :: '-' :: d1 :: d2 :: rest =>
    y1.isDigit && y2.isDigit && y3.isDigit && y4.isDigit &&
    ((m1 = '0' && m2.isDigit && m2 ≠ '0') || (m1 = '1' && (m2 = '0' || m2 = '1' || m2 = '2'))) &&
    ((d1 = '0' && d2.isDigit && d2 ≠ '0') || ((d1 = '1' || d1 = '2') && d2.isDigit) ||
      (d1 = '3' && (d2 = '0' || d2 = '1'))) &&
    (rest.isEmpty || rest.headD ' ' = 'T')
  | _ => false

/-- The date rule: required; a present value goes through the middleware
date construction, modelled as the ISO calendar-date shape check, and an
unparseable value is reported as an invalid date. -/
def dateRule : RawLead → Option String :=
  fun raw =>
    match raw.date with
    | none => some "Lead date is required"
    | some s =>
      if s.isEmpty then some "Please provide a valid date"
      else if isoDatePrefixOk s.data then none
      else some "Please provide a valid date"

/-- A DNC flag rule: required; a present value goes through the middleware
parseInt coercion, a non-numeric value is reported as non-numeric, and a
numeric value outside 0 and 1 is reported against the closed set. -/
def dncRule (get : RawLead → Option String) (reqMsg baseMsg onlyMsg : String) :
    RawLead → Option String :=
  fun raw =>
    match get raw with
    | none => some reqMsg
    | some s =>
      if s.isEmpty then some baseMsg
      else
        match jsParseInt s with
        | none => some baseMsg
        | some n => if n = 0 || n = 1 then none else some onlyMsg

/-- The time rule body: required, then the HH:MM:SS pattern on the raw
value, which the schema does not trim. -/
def timeRule : RawLead → Option String :=
  fun raw =>
    match raw.time with
    | none => some "Lead time is required"
    | some s => if validTime s then none else some "Please provide a valid time in HH:MM:SS format"

/-- The email rule body: an optional field whose trimmed, present, non-empty
value must have the basic email shape. -/
def emailRule : RawLead → Option String :=
  fun raw =>
    match raw.email with
    | none => none
    | some s =>
      let t := jsTrim s
      if t.isEmpty then none
      else if emailShape t then none else some "Please provide a valid email address"

/-- The declarative rule table of the schema, one entry per constraint. -/
def RULES : List Rule :=
  [⟨"leadid", reqRule (fun r => r.leadid) "Lead ID is required"⟩,
   ⟨"leadid", maxRule (fun r => r.leadid) 255 "Lead ID cannot exceed 255 characters"⟩,
   ⟨"leadtype", reqRule (fun r => r.leadtype) "Lead type is required"⟩,
   ⟨"leadtype", validSetRule (fun r => r.leadtype) ["company", "category"]
      "Lead type must be either \"company\" or \"category\""⟩,
   ⟨"leadtype", maxRule (fun r => r.leadtype) 255 "Lead type cannot exceed 255 characters"⟩,
   ⟨"prefix", validSetRule (fun r => r.prefixStr) ["Mr", "Ms", "Dr", ""]
      "Prefix must be Mr, Ms, Dr, or empty"⟩,
   ⟨"prefix", maxRule (fun r => r.prefixStr) 10 "Prefix cannot exceed 10 characters"⟩,
   ⟨"name", reqRule (fun r => r.name) "Name is required"⟩,
   ⟨"name", maxRule (fun r => r.name) 255 "Name cannot exceed 255 characters"⟩,
   ⟨"mobile", maxRule (fun r => r.mobile) 50 "Mobile cannot exceed 50 characters"⟩,
   ⟨"mobile", patternRule (fun r => r.mobile) phoneCharsOk "Mobile number contains invalid characters"⟩,
   ⟨"phone", maxRule (fun r => r.phone) 50 "Phone cannot exceed 50 characters"⟩,
   ⟨"phone", patternRule (fun r => r.phone) phoneCharsOk "Phone number contains invalid characters"⟩,
   ⟨"email", emailRule⟩,
   ⟨"email", maxRule (fun r => r.email) 255 "Email cannot exceed 255 characters"⟩,
   ⟨"date", dateRule⟩,
   ⟨"category", reqRule (fun r => r.category) "Category is required"⟩,
   ⟨"category", maxRule (fun r => r.category) 255 "Category cannot exceed 255 characters"⟩,
   ⟨"city", reqRule (fun r => r.city) "City is required"⟩,
   ⟨"city", maxRule (fun r => r.city) 255 "City cannot exceed 255 characters"⟩,
   ⟨"area", maxRule (fun r => r.area) 255 "Area cannot exceed 255 characters"⟩,
   ⟨"brancharea", maxRule (fun r => r.brancharea) 255 "Branch area cannot exceed 255 characters"⟩,
   ⟨"dncmobile", dncRule (fun r => r.dncmobile) "DNC mobile status is required"
      "DNC mobile must be a number" "DNC mobile must be 0 (non-DND) or 1 (DND)"⟩,
   ⟨"dncphone", dncRule (fun r => r.dncphone) "DNC phone status is required"
      "DNC phone must be a number" "DNC phone must be 0 (non-DND) or 1 (DND)"⟩,
   ⟨"company", maxRule (fun r => r.company) 255 "Company cannot exceed 255 characters"⟩,
   ⟨"pincode", maxRule (fun r => r.pincode) 50 "Pincode cannot exceed 50 characters"⟩,
   ⟨"pincode", patternRule (fun r => r.pincode) digitsOnly "Pincode must contain only numbers"⟩,
   ⟨"time", timeRule⟩,
   ⟨"branchpin", maxRule (fun r => r.branchpin) 50 "Branch pincode cannot exceed 50 characters"⟩,
   ⟨"branchpin", patternRule (fun r => r.branchpin) digitsOnly "Branch pincode must contain only numbers"⟩,
   ⟨"parentid", maxRule (fun r => r.parentid) 255 "Parent ID cannot exceed 255 characters"⟩]

/-- Evaluate every rule of the table on the raw input and collect every
violation, in table order: the single collect-all validation pass. -/
def validationErrors (raw : RawLead) : List FieldError :=
  RULES.filterMap (fun rule => (rule.check raw).map (fun m => ⟨rule.field, m⟩))

/-- The validation middleware verdict: the collected violations on failure,
or the input passed along on success. -/
def validateLead (raw : RawLead) : Except (List FieldError) RawLead :=
  let errs := validationErrors raw
  if errs.isEmpty then Except.ok raw else Except.error errs

/-! ## Sanitization stage -/

/-- A field value of the validated object: the stage rewrites string values
and passes every non-string value through. -/
inductive JsVal
  | str (s : String)
  | num (n : Int)
  | boolVal (b : Bool)
deriving DecidableEq, Repr

/-- Sanitize one string: trim the ends, then collapse each whitespace run to
one space. -/
def sanitizeString (s : String) : String :=
  String.mk (collapseWs (trimChars s.data))

/-- Sanitize one field value. -/
def sanitizeVal : JsVal → JsVal
  | JsVal.str s => JsVal.str (sanitizeString s)
  | v => v

/-- The sanitization middleware over the key-value object. -/
def sanitizeLead (obj : List (String × JsVal)) : List (String × JsVal) :=
  obj.map (fun kv => (kv.1, sanitizeVal kv.2))

/-- Canonical whitespace shape of a sanitized character list: every
whitespace character is a single space not followed by more whitespace. -/
def wsNormal : List Char → Bool
  | [] => true
  | c :: rest =>
    (if isWsChar c then decide (c = ' ') && headNotWs rest else true) && wsNormal rest

/-! ## Concrete values used by witnesses and counterexamples -/

/-- The specification scenario lead. -/
def sampleLead : LeadData :=
  { leadid := some "L1", leadtype := some "company", prefixStr := none,
    name := some "Acme", mobile := some "9999999999", phone := some "8888888888",
    email := none, date := some ⟨2024, 1, 15, 0, 0, 0⟩, time := some "10:30:00",
    category := some "Digital Marketing Services", city := some "Mumbai",
    area := none, brancharea := none, pincode := none }

/-- A non-2xx external response whose body text is the marker boom. -/
def c6Resp : HttpResp :=
  { ok := false, status := 500, statusText := "Internal Server Error",
    bodyText := "boom", jsonData := "" }

/-- A raw input violating the name constraint and the time constraint. -/
def raw0time : RawLead := { emptyRaw with time := some "99:99:99" }

/-- A store holding one processed lead. -/
def c3Db : Db := [⟨"L1", Status.processed, emptyLead⟩]

/-- A store holding one failed lead, for the bulk counterexample. -/
def c4Db : Db := [⟨"L1", Status.failed, emptyLead⟩]

/-- A store holding one failed lead, for the retry witness. -/
def c5Db : Db := [⟨"L1", Status.failed, emptyLead⟩]

/-- Store with one processed lead, for the retry witness 400 side. -/
def c5DbP : Db := [⟨"L2", Status.processed, emptyLead⟩]

/-- A resolved successful forwarding result. -/
def fwdOkEvent : ForwardEvent :=
  ForwardEvent.result
    { success := true, apiEndpoint := some MARKETING_API,
      category := some "Digital Marketing Services", data := some "ok",
      error := none }

/-- Store with one processed lead for the amended C3 witness. -/
def c3DbW : Db := [⟨"P1", Status.processed, emptyLead⟩]

/-- Store with two leads for the C4 witness. -/
def c4DbW : Db :=
  [⟨"A", Status.failed, emptyLead⟩, ⟨"B", Status.processed, emptyLead⟩]

/-! ## Theorems -/

/-- The two destination URLs are distinct. -/
theorem whatsapp_ne_marketing : WHATSAPP_API ≠ MARKETING_API := by decide

/-- Claim C2: endpoint selection returns the WhatsApp endpoint exactly when
the trimmed category is an element of the fixed WhatsApp allow-list, returns
the marketing endpoint for every other category including the empty or
missing one, and never returns a third destination. -/
theorem getApiEndpoint_contract (category : Option String) :
    (getApiEndpoint category = WHATSAPP_API ↔
      ∃ c, category = some c ∧ WHATSAPP_CATEGORIES.contains (jsTrim c) = true) ∧
    (getApiEndpoint category = WHATSAPP_API ∨ getApiEndpoint category = MARKETING_API) := by
  match category with
  | none =>
    refine ⟨⟨fun h => absurd h.symm whatsapp_ne_marketing, ?_⟩, Or.inr rfl⟩
    rintro ⟨c, hc, -⟩
    exact Option.noConfusion hc
  | some c =>
    by_cases hc : c.isEmpty = true
    · have hce : c = "" := (String.isEmpty_iff c).mp hc
      subst hce
      have hval : getApiEndpoint (some "") = MARKETING_API := rfl
      refine ⟨⟨fun h => ?_, ?_⟩, Or.inr hval⟩
      · rw [hval] at h
        exact absurd h.symm whatsapp_ne_marketing
      · rintro ⟨c', hc', hcont⟩
        cases hc'
        exact absurd hcont (by decide)
    · by_cases hw : WHATSAPP_CATEGORIES.contains (jsTrim c) = true
      · have hval : getApiEndpoint (some c) = WHATSAPP_API := by
          simp only [getApiEndpoint]
          rw [if_neg hc, if_pos hw]
        exact ⟨⟨fun _ => ⟨c, rfl, hw⟩, fun _ => hval⟩, Or.inl hval⟩
      · have hval : getApiEndpoint (some c) = MARKETING_API := by
          simp only [getApiEndpoint]
          rw [if_neg hc, if_neg hw]
        refine ⟨⟨fun h => ?_, ?_⟩, Or.inr hval⟩
        · rw [hval] at h
          exact absurd h.symm whatsapp_ne_marketing
        · rintro ⟨c', hc', hcont⟩
          cases hc'
          exact absurd hcont hw

/-- Witness for C2 at concrete categories on both sides of the allow-list. -/
theorem getApiEndpoint_contract_witness :
    getApiEndpoint (some "Broadcast Services") = WHATSAPP_API ∧
    getApiEndpoint (some "Digital Marketing Services") = MARKETING_API := by
  constructor
  · exact (getApiEndpoint_contract (some "Broadcast Services")).1.mpr
      ⟨"Broadcast Services", rfl, by decide⟩
  · rcases (getApiEndpoint_contract (some "Digital Marketing Services")).2 with h | h
    · obtain ⟨c, hc, hcont⟩ :=
        (getApiEndpoint_contract (some "Digital Marketing Services")).1.mp h
      cases hc
      exact absurd hcont (by decide)
    · exact h

/-- Claim C7: the transform prefers the mobile field for the phone-number
key whenever mobile is present and non-empty, falls back to phone only when
mobile is absent or empty, and omits the key when both are absent or empty. -/
theorem transformLeadData_phone_preference (ld : LeadData) :
    (truthyStr ld.mobile = true → (transformLeadData ld).phoneNumber = ld.mobile) ∧
    (truthyStr ld.mobile = false → truthyStr ld.phone = true →
      (transformLeadData ld).phoneNumber = ld.phone) ∧
    (truthyStr ld.mobile = false → truthyStr ld.phone = false →
      (transformLeadData ld).phoneNumber = none) := by
  refine ⟨fun h1 => ?_, fun h1 h2 => ?_, fun h1 h2 => ?_⟩ <;>
    simp [transformLeadData, h1]
  · simp [h2]
  · simp [h2]

/-- Witness for C7: with both mobile and phone set, mobile is preferred. -/
theorem transformLeadData_phone_preference_witness :
    (transformLeadData sampleLead).phoneNumber = some "9999999999" :=
  (transformLeadData_phone_preference sampleLead).1 (by decide)

/-- Claim C10: the forwarding pipeline is total; its result either is a
success with no error, or is a failure carrying an error message together
with the lead category, so callers detect dispatch failure from the returned
value. -/
theorem processAndForwardLead_total (ld : LeadData) (f : FetchOutcome) :
    ((processAndForwardLead ld f).success = true ∧
      (processAndForwardLead ld f).error = none) ∨
    ((processAndForwardLead ld f).success = false ∧
      (∃ m, (processAndForwardLead ld f).error = some m) ∧
      (processAndForwardLead ld f).category = ld.category) := by
  cases f with
  | networkError msg =>
    right
    simp [processAndForwardLead, sendLeadToApi]
  | response r =>
    by_cases h : r.ok
    · left
      simp [processAndForwardLead, sendLeadToApi, h]
    · right
      simp [processAndForwardLead, sendLeadToApi, h]

/-- Counterexample for C6: for the concrete non-2xx response with body text
boom, the failure result carries the status code and status text but its
error message does not contain the body text, so the failure result does not
carry the response body text. -/
theorem dispatch_nonok_body_not_carried :
    processAndForwardLead emptyLead (FetchOutcome.response c6Resp) =
      { success := false, apiEndpoint := none, category := none, data := none,
        error := some "API request failed: 500 Internal Server Error" } ∧
    c6Resp.bodyText = "boom" ∧
    ¬ List.IsInfix "boom".data "API request failed: 500 Internal Server Error".data := by
  refine ⟨by decide, rfl, by decide⟩

/-- Claim C6 as amended: a non-2xx response yields a failure result carrying
the status code and the status text of the response (the body text is only
logged), a network or timeout error yields a failure result carrying the
error message, and neither case yields a success result. -/
theorem dispatch_failure_contents (ld : LeadData) (r : HttpResp) (msg : String) :
    (r.ok = false →
      processAndForwardLead ld (FetchOutcome.response r) =
        { success := false, apiEndpoint := none, category := ld.category, data := none,
          error := some ("API request failed: " ++ toString r.status ++ " " ++ r.statusText) }) ∧
    (processAndForwardLead ld (FetchOutcome.networkError msg) =
      { success := false, apiEndpoint := none, category := ld.category, data := none,
        error := some msg }) := by
  constructor
  · intro h
    simp [processAndForwardLead, sendLeadToApi, h]
  · simp [processAndForwardLead, sendLeadToApi]

/-- Witness for the amended C6 at the concrete non-2xx response. -/
theorem dispatch_failure_contents_witness :
    processAndForwardLead emptyLead (FetchOutcome.response c6Resp) =
      { success := false, apiEndpoint := none, category := none, data := none,
        error := some "API request failed: 500 Internal Server Error" } :=
  (dispatch_failure_contents emptyLead c6Resp "network down").1 rfl

/-- Claim C8: the validation stage reports every violated rule of the table
in its single pass; each violated rule contributes its field-message entry
to the error list, and a non-empty error list is what the middleware
answers 400 with. -/
theorem validateLead_reports_all (raw : RawLead) (rule : Rule) (m : String)
    (h1 : rule ∈ RULES) (h2 : rule.check raw = some m) :
    FieldError.mk rule.field m ∈ validationErrors raw ∧
    validateLead raw = Except.error (validationErrors raw) := by
  have hmem : FieldError.mk rule.field m ∈ validationErrors raw := by
    unfold validationErrors
    exact List.mem_filterMap.mpr ⟨rule, h1, by rw [h2]; rfl⟩
  refine ⟨hmem, ?_⟩
  have hne : (validationErrors raw).isEmpty = false := by
    cases hve : validationErrors raw with
    | nil => rw [hve] at hmem; cases hmem
    | cons a as => simp
  simp [validateLead, hne]

/-- Witness for C8: an input missing the name and carrying a malformed time
gets both violations reported. -/
theorem validateLead_reports_all_witness :
    FieldError.mk "name" "Name is required" ∈ validationErrors raw0time ∧
    FieldError.mk "time" "Please provide a valid time in HH:MM:SS format" ∈
      validationErrors raw0time := by
  constructor
  · exact (validateLead_reports_all raw0time
      ⟨"name", reqRule (fun r => r.name) "Name is required"⟩ _
      (by unfold RULES
          repeat first | exact List.Mem.head _ | apply List.Mem.tail) rfl).1
  · exact (validateLead_reports_all raw0time ⟨"time", timeRule⟩ _
      (by unfold RULES
          repeat first | exact List.Mem.head _ | apply List.Mem.tail) rfl).1

/-! ## Store lemmas -/

/-- Finding under a record map that preserves identifiers is the map of the
find. -/
theorem findLead_map (f : LeadRec → LeadRec) (hf : ∀ r, (f r).leadid = r.leadid)
    (db : Db) (l : String) :
    findLead (db.map f) l = (findLead db l).map f := by
  induction db with
  | nil => rfl
  | cons r tl ih =>
    unfold findLead at *
    simp only [List.map_cons]
    by_cases hr : r.leadid = l
    · rw [List.find?_cons_of_pos _ (by simp [hf, hr]),
        List.find?_cons_of_pos _ (by simp [hr])]
      rfl
    · rw [List.find?_cons_of_neg _ (by simp [hf, hr]),
        List.find?_cons_of_neg _ (by simp [hr])]
      exact ih

/-- A status write preserves identifiers, so finding afterwards maps the
conditional update over the old find. -/
theorem findLead_setStatus (db : Db) (key : String) (st : Status) (l : String) :
    findLead (setStatus db key st) l =
      (findLead db l).map (fun r => if r.leadid = key then { r with status := st } else r) := by
  unfold setStatus
  exact findLead_map _ (fun r => by by_cases h : r.leadid = key <;> simp [h]) db l

/-- A record found by identifier bears that identifier. -/
theorem findLead_leadid {db : Db} {l : String} {r : LeadRec}
    (h : findLead db l = some r) : r.leadid = l := by
  unfold findLead at h
  exact of_decide_eq_true (@List.find?_some _ (fun x : LeadRec => decide (x.leadid = l)) _ _ h)

/-- Writing a status to the found record is visible in the next find. -/
theorem findLead_setStatus_self {db : Db} {id : String} {lead : LeadRec}
    (st : Status) (h : findLead db id = some lead) :
    findLead (setStatus db id st) id = some { lead with status := st } := by
  rw [findLead_setStatus, h]
  simp [findLead_leadid h]

/-- A status write under a different key does not change what is found. -/
theorem findLead_setStatus_ne {db : Db} {key l : String} (st : Status)
    (h : l ≠ key) :
    findLead (setStatus db key st) l = findLead db l := by
  rw [findLead_setStatus]
  cases hf : findLead db l with
  | none => rfl
  | some r => simp [findLead_leadid hf, h]

/-- Finding a fresh key after inserting a record for it and writing its
status returns that record at the written status. -/
theorem findLead_insert_setStatus (db : Db) (key : String) (ld : LeadData)
    (st : Status) (h : findLead db key = none) :
    findLead (setStatus (db ++ [⟨key, Status.pending, ld⟩]) key st) key =
      some ⟨key, st, ld⟩ := by
  rw [findLead_setStatus]
  unfold findLead at h ⊢
  rw [List.find?_append, h]
  simp

/-- Records other than a fresh inserted key are found unchanged after the
insert-and-write of the create path. -/
theorem findLead_insert_setStatus_other (db : Db) (key : String) (ld : LeadData)
    (st : Status) {l : String} {r : LeadRec}
    (hkey : findLead db key = none) (hl : findLead db l = some r) :
    findLead (setStatus (db ++ [⟨key, Status.pending, ld⟩]) key st) l = some r := by
  have hne : l ≠ key := by
    intro he
    rw [he, hkey] at hl
    exact Option.noConfusion hl
  rw [findLead_setStatus_ne st hne]
  unfold findLead at hl ⊢
  rw [List.find?_append, hl]
  rfl

/-! ## Claim theorems for the orchestrator -/

/-- Claim C1: the create handler answers 409 without forwarding when the
leadid already exists; otherwise it inserts the record, makes exactly one
forwarding attempt, performs exactly one status write taking the record to
processed on success and failed on declared failure or thrown exception —
never leaving it pending — and acknowledges 200 RECEIVED in every
forwarding outcome. -/
theorem createLead_contract (db : Db) (ld : LeadData) (fwd : ForwardEvent) :
    ((findLead db (ld.leadid.getD "")).isSome = true →
      (createLead db ld fwd).httpStatus = 409 ∧
      (createLead db ld fwd).forwardAttempts = 0 ∧
      (createLead db ld fwd).db = db) ∧
    (findLead db (ld.leadid.getD "") = none →
      (createLead db ld fwd).httpStatus = 200 ∧
      (createLead db ld fwd).body = "RECEIVED" ∧
      (createLead db ld fwd).forwardAttempts = 1 ∧
      (createLead db ld fwd).statusWrites = 1 ∧
      findLead (createLead db ld fwd).db (ld.leadid.getD "") =
        some ⟨ld.leadid.getD "",
              if fwd.isOk then Status.processed else Status.failed, ld⟩ ∧
      (if fwd.isOk then Status.processed else Status.failed) ≠ Status.pending) := by
  constructor
  · intro h
    obtain ⟨r, hr⟩ := Option.isSome_iff_exists.mp h
    simp [createLead, hr]
  · intro h
    have hins := findLead_insert_setStatus db (ld.leadid.getD "") ld
    cases fwd with
    | result r =>
      by_cases hs : r.success
      · simp [createLead, h, hs, ForwardEvent.isOk, hins Status.processed h]
      · simp [createLead, h, hs, ForwardEvent.isOk, hins Status.failed h]
    | thrown msg =>
      simp [createLead, h, ForwardEvent.isOk, hins Status.failed h]

/-- Witness for C1: a fresh store, the scenario lead, and a thrown
forwarding exception leave the record failed, never pending, behind a 200
RECEIVED acknowledgement. -/
theorem createLead_contract_witness :
    (createLead [] sampleLead (ForwardEvent.thrown "boom")).httpStatus = 200 ∧
    (createLead [] sampleLead (ForwardEvent.thrown "boom")).body = "RECEIVED" ∧
    findLead (createLead [] sampleLead (ForwardEvent.thrown "boom")).db "L1" =
      some ⟨"L1", Status.failed, sampleLead⟩ := by
  have h := (createLead_contract [] sampleLead (ForwardEvent.thrown "boom")).2 rfl
  exact ⟨h.1, h.2.1, h.2.2.2.2.1⟩

/-- Claim C5: retry on an existing lead that is not failed answers 400
reporting the current status with no forwarding attempt and no store change;
retry on a failed lead makes exactly one forwarding attempt, reports the
outcome synchronously, and leaves the stored status processed on success and
failed on failure. -/
theorem retryLeadForwarding_contract (db : Db) (id : String) (fwd : ForwardEvent)
    (lead : LeadRec) (hfound : findLead db id = some lead) :
    (lead.status ≠ Status.failed →
      (retryLeadForwarding db id fwd).httpStatus = 400 ∧
      (retryLeadForwarding db id fwd).currentStatus = some lead.status ∧
      (retryLeadForwarding db id fwd).forwardAttempts = 0 ∧
      (retryLeadForwarding db id fwd).db = db) ∧
    (lead.status = Status.failed →
      (retryLeadForwarding db id fwd).forwardAttempts = 1 ∧
      (retryLeadForwarding db id fwd).success = fwd.isOk ∧
      (retryLeadForwarding db id fwd).httpStatus = (if fwd.isOk then 200 else 500) ∧
      findLead (retryLeadForwarding db id fwd).db id =
        some { lead with
               status := if fwd.isOk then Status.processed else Status.failed }) := by
  constructor
  · intro h
    simp [retryLeadForwarding, hfound, h]
  · intro h
    cases fwd with
    | result r =>
      by_cases hs : r.success
      · simp [retryLeadForwarding, hfound, h, hs, ForwardEvent.isOk,
          findLead_setStatus_self Status.processed hfound]
      · have hrec : LeadRec.mk lead.leadid Status.failed lead.dataFields = lead := by
          rw [← h]
        simp [retryLeadForwarding, hfound, h, hs, ForwardEvent.isOk, hrec]
    | thrown msg =>
      have hrec : LeadRec.mk lead.leadid Status.failed lead.dataFields = lead := by
        rw [← h]
      simp [retryLeadForwarding, hfound, h, ForwardEvent.isOk, hrec]

/-- Witness for C5: retry on a processed lead answers 400 with the current
status and no attempt; retry on a failed lead with a successful forward
answers 200 and stores processed. -/
theorem retryLeadForwarding_contract_witness :
    ((retryLeadForwarding c5DbP "L2" fwdOkEvent).httpStatus = 400 ∧
      (retryLeadForwarding c5DbP "L2" fwdOkEvent).currentStatus = some Status.processed ∧
      (retryLeadForwarding c5DbP "L2" fwdOkEvent).forwardAttempts = 0) ∧
    ((retryLeadForwarding c5Db "L1" fwdOkEvent).httpStatus = 200 ∧
      findLead (retryLeadForwarding c5Db "L1" fwdOkEvent).db "L1" =
        some ⟨"L1", Status.processed, emptyLead⟩) := by
  constructor
  · have h := (retryLeadForwarding_contract c5DbP "L2" fwdOkEvent
      ⟨"L2", Status.processed, emptyLead⟩ rfl).1 (by decide)
    exact ⟨h.1, h.2.1, h.2.2.1⟩
  · have h := (retryLeadForwarding_contract c5Db "L1" fwdOkEvent
      ⟨"L1", Status.failed, emptyLead⟩ rfl).2 rfl
    exact ⟨h.2.2.1, h.2.2.2⟩

/-- Counterexample for C3: the PATCH status endpoint, applied to a processed
lead with body status pending, answers 200 and stores pending — the
transition processed to pending does occur. -/
theorem patch_processed_to_pending :
    findLead c3Db "L1" = some ⟨"L1", Status.processed, emptyLead⟩ ∧
    (updateLeadStatus c3Db "L1" "pending").1 = 200 ∧
    findLead (updateLeadStatus c3Db "L1" "pending").2 "L1" =
      some ⟨"L1", Status.pending, emptyLead⟩ := by decide

/-- The store after a bulk-forward request: unchanged on a rejected request,
and otherwise every record whose identifier was requested is written to
processed or failed by its own forward event. -/
theorem bulk_db_cases (db : Db) (ids : List String) (ev : String → ForwardEvent) :
    (bulkForwardLeads db ids ev).db = db ∨
    (bulkForwardLeads db ids ev).db =
      db.map (fun r =>
        if ids.contains r.leadid then
          { r with status := if (ev r.leadid).isOk then Status.processed else Status.failed }
        else r) := by
  unfold bulkForwardLeads
  split
  · exact Or.inl rfl
  · split
    · exact Or.inl rfl
    · split
      · exact Or.inl rfl
      · exact Or.inr rfl

/-- Claim C3 as amended: the create path never rewrites a pre-existing
record; the retry path rewrites the target only from failed, to processed or
failed; the bulk path rewrites any requested record — whatever its current
status — to processed or failed; and the PATCH endpoint writes whichever
enum status the body carries, unconditionally, so transitions such as
processed to pending are possible through it. -/
theorem statusTransition_discipline :
    (∀ (db : Db) (ld : LeadData) (fwd : ForwardEvent) (l : String) (r r' : LeadRec),
      findLead db l = some r → findLead (createLead db ld fwd).db l = some r' →
      r' = r) ∧
    (∀ (db : Db) (id : String) (fwd : ForwardEvent) (l : String) (r r' : LeadRec),
      findLead db l = some r → findLead (retryLeadForwarding db id fwd).db l = some r' →
      r' = r ∨ (r.status = Status.failed ∧
        (r'.status = Status.processed ∨ r'.status = Status.failed))) ∧
    (∀ (db : Db) (ids : List String) (ev : String → ForwardEvent) (l : String) (r r' : LeadRec),
      findLead db l = some r → findLead (bulkForwardLeads db ids ev).db l = some r' →
      r' = r ∨ r'.status = Status.processed ∨ r'.status = Status.failed) ∧
    (∀ (db : Db) (id statusStr : String) (st : Status) (r : LeadRec),
      statusOfString statusStr = some st → findLead db id = some r →
      (updateLeadStatus db id statusStr).1 = 200 ∧
      findLead (updateLeadStatus db id statusStr).2 id = some { r with status := st }) := by
  refine ⟨?_, ?_, ?_, ?_⟩
  · intro db ld fwd l r r' h1 h2
    cases hkey : findLead db (ld.leadid.getD "") with
    | some x =>
      simp only [createLead, hkey] at h2
      rw [h1] at h2
      exact (Option.some_injective _ h2).symm
    | none =>
      have hother := findLead_insert_setStatus_other db (ld.leadid.getD "") ld
      cases fwd with
      | result r0 =>
        by_cases hs : r0.success
        · simp [createLead, hkey, hs] at h2
          rw [hother Status.processed hkey h1] at h2
          exact (Option.some_injective _ h2).symm
        · simp [createLead, hkey, hs] at h2
          rw [hother Status.failed hkey h1] at h2
          exact (Option.some_injective _ h2).symm
      | thrown msg =>
        simp [createLead, hkey] at h2
        rw [hother Status.failed hkey h1] at h2
        exact (Option.some_injective _ h2).symm
  · intro db id fwd l r r' h1 h2
    cases hkey : findLead db id with
    | none =>
      simp only [retryLeadForwarding, hkey] at h2
      rw [h1] at h2
      exact Or.inl (Option.some_injective _ h2).symm
    | some lead =>
      by_cases hst : lead.status = Status.failed
      · cases fwd with
        | result r0 =>
          by_cases hs : r0.success
          · simp [retryLeadForwarding, hkey, hst, hs] at h2
            by_cases hl : l = id
            · subst hl
              rw [hkey] at h1
              have hr : lead = r := Option.some_injective _ h1
              rw [findLead_setStatus_self Status.processed hkey] at h2
              have hr' : ({ lead with status := Status.processed } : LeadRec) = r' :=
                Option.some_injective _ h2
              refine Or.inr ⟨by rw [← hr]; exact hst, Or.inl ?_⟩
              rw [← hr']
            · rw [findLead_setStatus_ne Status.processed hl, h1] at h2
              exact Or.inl (Option.some_injective _ h2).symm
          · simp [retryLeadForwarding, hkey, hst, hs] at h2
            rw [h1] at h2
            exact Or.inl (Option.some_injective _ h2).symm
        | thrown msg =>
          simp [retryLeadForwarding, hkey, hst] at h2
          rw [h1] at h2
          exact Or.inl (Option.some_injective _ h2).symm
      · simp [retryLeadForwarding, hkey, hst] at h2
        rw [h1] at h2
        exact Or.inl (Option.some_injective _ h2).symm
  · intro db ids ev l r r' h1 h2
    rcases bulk_db_cases db ids ev with hdb | hdb
    · rw [hdb, h1] at h2
      exact Or.inl (Option.some_injective _ h2).symm
    · rw [hdb] at h2
      rw [findLead_map _ (fun x => by split <;> rfl) db l, h1] at h2
      have hr' := (Option.some_injective _ h2).symm
      by_cases hc : ids.contains r.leadid
      · subst hr'
        have hmem : r.leadid ∈ ids := List.elem_iff.mp hc
        by_cases hok : (ev r.leadid).isOk <;> simp [hmem, hok]
      · subst hr'
        have hnmem : r.leadid ∉ ids := fun hm => hc (List.elem_iff.mpr hm)
        simp [hnmem]
  · intro db id statusStr st r hst hfound
    simp [updateLeadStatus, hst, hfound, findLead_setStatus_self st hfound]

/-- Witness for the amended C3: the PATCH part writes pending over a
processed record with a 200 answer, and the bulk part accounts for the
processed record being rewritten to failed. -/
theorem statusTransition_discipline_witness :
    ((updateLeadStatus c3DbW "P1" "pending").1 = 200 ∧
      findLead (updateLeadStatus c3DbW "P1" "pending").2 "P1" =
        some ⟨"P1", Status.pending, emptyLead⟩) ∧
    ((⟨"P1", Status.failed, emptyLead⟩ : LeadRec) = ⟨"P1", Status.processed, emptyLead⟩ ∨
      (⟨"P1", Status.failed, emptyLead⟩ : LeadRec).status = Status.processed ∨
      (⟨"P1", Status.failed, emptyLead⟩ : LeadRec).status = Status.failed) := by
  constructor
  · exact statusTransition_discipline.2.2.2 c3DbW "P1" "pending" Status.pending
      ⟨"P1", Status.processed, emptyLead⟩ rfl rfl
  · exact statusTransition_discipline.2.2.1 c3DbW ["P1"]
      (fun _ => ForwardEvent.thrown "down") "P1"
      ⟨"P1", Status.processed, emptyLead⟩ ⟨"P1", Status.failed, emptyLead⟩ rfl (by decide)

/-! ## Counting lemmas for the bulk path -/

/-- Boolean containment agrees with membership. -/
theorem contains_iff_mem {l : List String} {a : String} :
    l.contains a = true ↔ a ∈ l :=
  List.elem_iff

/-- Filtering one duplicate-free list by membership in another counts the
common elements, symmetrically. -/
theorem filter_mem_length_comm (K ids : List String) (hK : K.Nodup)
    (hids : ids.Nodup) :
    (K.filter (fun k => ids.contains k)).length =
      (ids.filter (fun id => K.contains id)).length := by
  have h1 : (K.filter (fun k => ids.contains k)).Nodup := hK.filter _
  have h2 : (ids.filter (fun id => K.contains id)).Nodup := hids.filter _
  rw [← List.toFinset_card_of_nodup h1, ← List.toFinset_card_of_nodup h2,
    List.toFinset_filter, List.toFinset_filter]
  have e1 : Finset.filter (fun x => ids.contains x = true) K.toFinset =
      K.toFinset ∩ ids.toFinset := by
    ext a
    simp [contains_iff_mem]
  have e2 : Finset.filter (fun x => K.contains x = true) ids.toFinset =
      ids.toFinset ∩ K.toFinset := by
    ext a
    simp [contains_iff_mem]
  rw [e1, e2, Finset.inter_comm]

/-- An identifier resolves exactly when it is among the stored keys. -/
theorem findLead_isSome_iff (db : Db) (id : String) :
    (findLead db id).isSome = true ↔ id ∈ db.map (fun r => r.leadid) := by
  unfold findLead
  rw [List.find?_isSome]
  constructor
  · rintro ⟨x, hx, hpx⟩
    exact List.mem_map.mpr ⟨x, hx, of_decide_eq_true hpx⟩
  · rintro hm
    obtain ⟨x, hx, he⟩ := List.mem_map.mp hm
    exact ⟨x, hx, decide_eq_true he⟩

/-- With unique stored keys and duplicate-free requested identifiers, the
records matching a request are as many as the identifiers that resolve. -/
theorem resolved_length (db : Db) (ids : List String)
    (hdb : (db.map (fun r => r.leadid)).Nodup) (hids : ids.Nodup) :
    (db.filter (fun r => ids.contains r.leadid)).length =
      (ids.filter (fun id => (findLead db id).isSome)).length := by
  have hmapfilter :
      (db.map (fun r => r.leadid)).filter (fun k => ids.contains k) =
        (db.filter (fun r => ids.contains r.leadid)).map (fun r => r.leadid) :=
    List.filter_map (fun r => r.leadid) db
  have hlen1 : (db.filter (fun r => ids.contains r.leadid)).length =
      ((db.map (fun r => r.leadid)).filter (fun k => ids.contains k)).length := by
    rw [hmapfilter, List.length_map]
  have hpt : ∀ id ∈ ids,
      (db.map (fun r => r.leadid)).contains id = (findLead db id).isSome := by
    intro id _
    rw [Bool.eq_iff_iff, contains_iff_mem]
    exact (findLead_isSome_iff db id).symm
  rw [hlen1, filter_mem_length_comm _ _ hdb hids, List.filter_congr hpt]

/-- Counterexample for C4: a request with one identifier (between 1 and 100
of them) in which no identifier resolves is answered 404, not 200 with a
summary. -/
theorem bulk_all_unknown_404 :
    (bulkForwardLeads c4Db ["ZZ"] (fun _ => ForwardEvent.thrown "down")).httpStatus = 404 ∧
    (bulkForwardLeads c4Db ["ZZ"] (fun _ => ForwardEvent.thrown "down")).httpStatus ≠ 200 ∧
    1 ≤ (["ZZ"] : List String).length ∧ (["ZZ"] : List String).length ≤ 100 ∧
    (bulkForwardLeads c4Db ["ZZ"] (fun _ => ForwardEvent.thrown "down")).summary = none := by
  decide

/-- Claim C4 as amended: for a request of 1 to 100 pairwise-distinct
identifiers of which at least one resolves against a store with unique keys,
the handler answers 200, the summary counts in notFound exactly the
identifiers resolving to no record, and the details carry one entry per
resolved lead, unresolved identifiers being counted but otherwise ignored;
a request in which no identifier resolves is answered 404 instead. -/
theorem bulkForwardLeads_contract (db : Db) (leadIds : List String)
    (eventOf : String → ForwardEvent)
    (hne : leadIds ≠ [])
    (hlen : leadIds.length ≤ 100)
    (hids : leadIds.Nodup)
    (hdb : (db.map (fun r => r.leadid)).Nodup)
    (hsome : ∃ id ∈ leadIds, (findLead db id).isSome = true) :
    (bulkForwardLeads db leadIds eventOf).httpStatus = 200 ∧
    (bulkForwardLeads db leadIds eventOf).summary =
      some { total := (db.filter (fun r => leadIds.contains r.leadid)).length,
             successful := ((db.filter (fun r => leadIds.contains r.leadid)).filter
               (fun r => (eventOf r.leadid).isOk)).length,
             failed := (db.filter (fun r => leadIds.contains r.leadid)).length -
               ((db.filter (fun r => leadIds.contains r.leadid)).filter
                 (fun r => (eventOf r.leadid).isOk)).length,
             notFound := (leadIds.filter (fun id => (findLead db id).isNone)).length } ∧
    (bulkForwardLeads db leadIds eventOf).details.length =
      (db.filter (fun r => leadIds.contains r.leadid)).length := by
  have h1' : ¬(leadIds.isEmpty = true) := by
    rw [List.isEmpty_iff]
    exact hne
  have h2' : ¬(leadIds.length > 100) := by omega
  obtain ⟨id, hidmem, hidsome⟩ := hsome
  obtain ⟨x, hx⟩ := Option.isSome_iff_exists.mp hidsome
  have hxmem : x ∈ db := by
    unfold findLead at hx
    exact List.mem_of_find?_eq_some hx
  have hxid : x.leadid = id := findLead_leadid hx
  have hxfil : x ∈ db.filter (fun r => leadIds.contains r.leadid) :=
    List.mem_filter.mpr ⟨hxmem, by rw [hxid]; exact contains_iff_mem.mpr hidmem⟩
  have h3' : ¬((db.filter (fun r => leadIds.contains r.leadid)).isEmpty = true) := by
    rw [List.isEmpty_iff]
    exact List.ne_nil_of_mem hxfil
  have hnot : leadIds.length - (db.filter (fun r => leadIds.contains r.leadid)).length =
      (leadIds.filter (fun id => (findLead db id).isNone)).length := by
    have hres := resolved_length db leadIds hdb hids
    have hsplit := @List.length_eq_length_filter_add _ leadIds
      (fun id => (findLead db id).isSome)
    have hnone : leadIds.filter (fun id => !(findLead db id).isSome) =
        leadIds.filter (fun id => (findLead db id).isNone) :=
      List.filter_congr (fun a _ => by cases findLead db a <;> rfl)
    rw [hnone] at hsplit
    omega
  rw [bulkForwardLeads, if_neg h1', if_neg h2', if_neg h3']
  refine ⟨rfl, ?_, ?_⟩
  · rw [hnot]
  · simp [bulkDetails]

/-- Witness for the amended C4: two known identifiers and one unknown one
give a 200 answer whose summary counts one not-found identifier and whose
details hold two entries. -/
theorem bulkForwardLeads_contract_witness :
    (bulkForwardLeads c4DbW ["A", "B", "ZZ"] (fun _ => ForwardEvent.thrown "down")).httpStatus = 200 ∧
    (bulkForwardLeads c4DbW ["A", "B", "ZZ"] (fun _ => ForwardEvent.thrown "down")).summary =
      some { total := 2, successful := 0, failed := 2, notFound := 1 } ∧
    (bulkForwardLeads c4DbW ["A", "B", "ZZ"] (fun _ => ForwardEvent.thrown "down")).details.length = 2 := by
  have h := bulkForwardLeads_contract c4DbW ["A", "B", "ZZ"]
    (fun _ => ForwardEvent.thrown "down") (by decide) (by decide) (by decide)
    (by decide) ⟨"A", by decide, by decide⟩
  exact ⟨h.1, h.2.1, h.2.2⟩

/-! ## Sanitization lemmas -/

/-- Dropping leading whitespace leaves a list with no leading whitespace. -/
theorem headNotWs_dropWhile (l : List Char) :
    headNotWs (l.dropWhile isWsChar) = true := by
  induction l with
  | nil => rfl
  | cons c rest ih =>
    by_cases h : isWsChar c = true
    · rw [List.dropWhile_cons, if_pos h]
      exact ih
    · rw [List.dropWhile_cons, if_neg h]
      simp only [headNotWs]
      simp [Bool.eq_false_iff.mpr h]

/-- The head of a non-empty prefix decides the head of the appended list. -/
theorem headNotWs_append {Y : List Char} (Z : List Char) (hY : Y ≠ []) :
    headNotWs (Y ++ Z) = headNotWs Y := by
  cases Y with
  | nil => exact absurd rfl hY
  | cons c tl => rfl

/-- The last element of a list with a non-empty tail is the tail's last. -/
theorem lastNotWs_cons {c : Char} {rest : List Char} (h : rest ≠ []) :
    lastNotWs (c :: rest) = lastNotWs rest := by
  unfold lastNotWs
  rw [List.reverse_cons]
  exact headNotWs_append [c] (by simpa using h)

/-- Dropping leading whitespace does not disturb a non-whitespace ending. -/
theorem lastNotWs_dropWhile (l : List Char) (h : lastNotWs l = true) :
    lastNotWs (l.dropWhile isWsChar) = true := by
  induction l with
  | nil => exact h
  | cons c rest ih =>
    by_cases hc : isWsChar c = true
    · rw [List.dropWhile_cons, if_pos hc]
      cases rest with
      | nil => simp [lastNotWs, headNotWs, hc] at h
      | cons d tl =>
        rw [lastNotWs_cons (by simp)] at h
        exact ih h
    · rw [List.dropWhile_cons, if_neg hc]
      exact h

/-- Dropping leading whitespace is the identity when there is none. -/
theorem dropWhile_of_headNotWs {l : List Char} (h : headNotWs l = true) :
    l.dropWhile isWsChar = l := by
  cases l with
  | nil => rfl
  | cons c rest =>
    have hc : isWsChar c = false := by simpa [headNotWs] using h
    rw [List.dropWhile_cons, if_neg (by simp [hc])]

/-- A trimmed list has no whitespace at either end. -/
theorem trimChars_edges (l : List Char) :
    headNotWs (trimChars l) = true ∧ lastNotWs (trimChars l) = true := by
  unfold trimChars
  constructor
  · have h : lastNotWs ((l.dropWhile isWsChar).reverse.dropWhile isWsChar) = true := by
      apply lastNotWs_dropWhile
      unfold lastNotWs
      rw [List.reverse_reverse]
      exact headNotWs_dropWhile l
    exact h
  · unfold lastNotWs
    rw [List.reverse_reverse]
    exact headNotWs_dropWhile _

/-- Trimming is the identity on a list with no whitespace at either end. -/
theorem trimChars_of_edges {l : List Char} (h1 : headNotWs l = true)
    (h2 : lastNotWs l = true) : trimChars l = l := by
  unfold trimChars
  rw [dropWhile_of_headNotWs h1, dropWhile_of_headNotWs h2]
  exact List.reverse_reverse l

/-- Inside a whitespace run, the collapser emits nothing until the next
non-whitespace character. -/
theorem headNotWs_collapseTrue (l : List Char) :
    headNotWs (collapseWsAux true l) = true := by
  induction l with
  | nil => rfl
  | cons c rest ih =>
    by_cases h : isWsChar c = true
    · simpa [collapseWsAux, h] using ih
    · simp [collapseWsAux, h, headNotWs]

/-- Every output of the collapser is in canonical whitespace shape. -/
theorem wsNormal_collapseWsAux (l : List Char) :
    ∀ flag, wsNormal (collapseWsAux flag l) = true := by
  induction l with
  | nil =>
    intro flag
    rfl
  | cons c rest ih =>
    intro flag
    by_cases h : isWsChar c = true
    · cases flag with
      | true => simpa [collapseWsAux, h] using ih true
      | false =>
        have hsp : isWsChar ' ' = true := by decide
        simp [collapseWsAux, h, wsNormal, hsp, headNotWs_collapseTrue rest, ih true]
    · simp [collapseWsAux, h, wsNormal, ih false]

/-- The collapser is the identity on canonical input, whichever flag it
starts with when the input has no leading whitespace. -/
theorem collapseWsAux_of_wsNormal (l : List Char) (h : wsNormal l = true) :
    collapseWsAux false l = l ∧ (headNotWs l = true → collapseWsAux true l = l) := by
  induction l with
  | nil => exact ⟨rfl, fun _ => rfl⟩
  | cons c rest ih =>
    rw [wsNormal, Bool.and_eq_true] at h
    obtain ⟨hcond, hrest⟩ := h
    obtain ⟨ih1, ih2⟩ := ih hrest
    constructor
    · by_cases hw : isWsChar c = true
      · rw [if_pos hw, Bool.and_eq_true] at hcond
        have hsp : c = ' ' := of_decide_eq_true hcond.1
        have hspw : isWsChar ' ' = true := by decide
        simp [collapseWsAux, hw, hsp, hspw, ih2 hcond.2]
      · simp [collapseWsAux, hw, ih1]
    · intro hh
      have hw : isWsChar c = false := by simpa [headNotWs] using hh
      simp [collapseWsAux, hw, ih1]

/-- Collapsing whitespace runs is idempotent. -/
theorem collapseWs_idem (l : List Char) :
    collapseWs (collapseWs l) = collapseWs l :=
  (collapseWsAux_of_wsNormal _ (wsNormal_collapseWsAux l false)).1

/-- Collapsing preserves a non-whitespace beginning. -/
theorem headNotWs_collapseWs {l : List Char} (h : headNotWs l = true) :
    headNotWs (collapseWs l) = true := by
  cases l with
  | nil => rfl
  | cons c rest =>
    have hc : isWsChar c = false := by simpa [headNotWs] using h
    simp [collapseWs, collapseWsAux, hc, headNotWs]

/-- A list ending in a non-whitespace character collapses to a list ending
in that same character. -/
theorem collapseWsAux_concat (Y : List Char) (c : Char) (hc : isWsChar c = false) :
    ∀ flag, ∃ Z, collapseWsAux flag (Y ++ [c]) = Z ++ [c] := by
  induction Y with
  | nil =>
    intro flag
    exact ⟨[], by simp [collapseWsAux, hc]⟩
  | cons d tl ih =>
    intro flag
    by_cases hd : isWsChar d = true
    · cases flag with
      | true => simpa [collapseWsAux, hd] using ih true
      | false =>
        obtain ⟨Z, hZ⟩ := ih true
        exact ⟨' ' :: Z, by simp [collapseWsAux, hd, hZ]⟩
    · obtain ⟨Z, hZ⟩ := ih false
      exact ⟨d :: Z, by simp [collapseWsAux, hd, hZ]⟩

/-- Collapsing preserves a non-whitespace ending. -/
theorem lastNotWs_collapseWs {l : List Char} (h : lastNotWs l = true) :
    lastNotWs (collapseWs l) = true := by
  rcases List.eq_nil_or_concat l with rfl | ⟨Y, c, rfl⟩
  · exact h
  · rw [List.concat_eq_append] at h ⊢
    have hc : isWsChar c = false := by
      unfold lastNotWs at h
      rw [List.reverse_append] at h
      simpa [headNotWs] using h
    obtain ⟨Z, hZ⟩ := collapseWsAux_concat Y c hc false
    unfold collapseWs
    rw [hZ]
    unfold lastNotWs
    rw [List.reverse_append]
    simp [headNotWs, hc]

/-- One sanitization pass is a fixed point of the string sanitizer. -/
theorem sanitizeString_idem (s : String) :
    sanitizeString (sanitizeString s) = sanitizeString s := by
  show String.mk (collapseWs (trimChars (collapseWs (trimChars s.data)))) =
    String.mk (collapseWs (trimChars s.data))
  rw [trimChars_of_edges (headNotWs_collapseWs (trimChars_edges s.data).1)
    (lastNotWs_collapseWs (trimChars_edges s.data).2)]
  rw [collapseWs_idem]

/-- Claim C9: applying the sanitization stage twice yields the same object
as applying it once — after one pass every string field is trimmed with its
whitespace runs collapsed, and non-string fields pass through unchanged, so
the second pass is the identity. -/
theorem sanitizeLead_idempotent (obj : List (String × JsVal)) :
    sanitizeLead (sanitizeLead obj) = sanitizeLead obj ∧
    (∀ n : Int, sanitizeVal (JsVal.num n) = JsVal.num n) ∧
    (∀ b : Bool, sanitizeVal (JsVal.boolVal b) = JsVal.boolVal b) := by
  refine ⟨?_, fun _ => rfl, fun _ => rfl⟩
  induction obj with
  | nil => rfl
  | cons kv tl ih =>
    simp only [sanitizeLead, List.map_cons] at ih ⊢
    rw [ih]
    congr 1
    cases kv.2 with
    | str s => simp [sanitizeVal, sanitizeString_idem]
    | num n => rfl
    | boolVal b => rfl

end JustdialLead
